import Mathlib

/-!
Verification of the LoquiLex-UI client-side orchestration layer.

The definitions below are a shallow embedding, in Lean, of the
orchestration primitives of the repository: the bounded queue and
byte-budgeted message buffer, the retry/backoff engine, the concurrency
limiter, the persistent-connection client send path, the value smoother
and the worker channel.  Every definition is translated directly from
the TypeScript source; JavaScript numbers are modelled as natural
numbers, integers or rationals as appropriate, promises as explicit
result values, and event-loop interleavings as explicit event traces.
-/

set_option maxHeartbeats 1000000

namespace LoquiLex

/-! ## Bounded queue (BoundedQueue, bounded-queue source file) -/

/-- Drop strategies of BoundedQueueConfig. -/
inductive DropStrategy where
  | oldest
  | newest
  | reject
deriving DecidableEq, Repr

/-- The configuration of a BoundedQueue.  The onDrop callback is modelled
by recording, in order, the items it is invoked on (field dropEvents of
the state below). -/
structure BQConfig where
  maxSize : Nat
  dropStrategy : DropStrategy
deriving DecidableEq, Repr

/-- The mutable state of a BoundedQueue: the item list, the droppedCount
counter, and the list of items the onDrop callback has been invoked on. -/
structure BQState (T : Type) where
  items : List T
  droppedCount : Nat
  dropEvents : List T
deriving DecidableEq, Repr

/-- A freshly constructed BoundedQueue. -/
def BQState.empty {T : Type} : BQState T := ⟨[], 0, []⟩

/-- BoundedQueue.enqueue.  Returns whether the item was admitted together
with the updated state.  When the queue is full the drop strategy decides:
oldest shifts the head, pushes the item and reports the dropped head;
newest rejects the incoming item and reports it; reject only returns
false.  With maxSize zero and strategy oldest the shift of the empty item
array yields undefined, so the item is pushed without any drop report,
exactly as in the source. -/
def bqEnqueue {T : Type} (cfg : BQConfig) (s : BQState T) (item : T) :
    Bool × BQState T :=
  if s.items.length < cfg.maxSize then
    (true, { s with items := s.items ++ [item] })
  else
    match cfg.dropStrategy with
    | .oldest =>
      match s.items with
      | [] => (true, { s with items := [item] })
      | d :: rest =>
        (true, { s with
            items := rest ++ [item]
            droppedCount := s.droppedCount + 1
            dropEvents := s.dropEvents ++ [d] })
    | .newest =>
      (false, { s with
          droppedCount := s.droppedCount + 1
          dropEvents := s.dropEvents ++ [item] })
    | .reject => (false, s)

/-- BoundedQueue.dequeue: pop the FIFO head, if any. -/
def bqDequeue {T : Type} (s : BQState T) : Option T × BQState T :=
  match s.items with
  | [] => (none, s)
  | h :: t => (some h, { s with items := t })

/-- BoundedQueue.clear: drop all items. -/
def bqClear {T : Type} (s : BQState T) : BQState T :=
  { s with items := [] }

/-- BoundedQueue.drain: remove and return all items in order. -/
def bqDrain {T : Type} (s : BQState T) : List T × BQState T :=
  (s.items, { s with items := [] })

/-- The operations a client may perform on a BoundedQueue. -/
inductive QueueOp (T : Type) where
  | enqueue (item : T)
  | dequeue
  | clear
  | drain
deriving Repr

/-- One operation applied to a BoundedQueue state. -/
def bqStep {T : Type} (cfg : BQConfig) (s : BQState T) : QueueOp T → BQState T
  | .enqueue x => (bqEnqueue cfg s x).2
  | .dequeue => (bqDequeue s).2
  | .clear => bqClear s
  | .drain => (bqDrain s).2

/-- A sequence of operations applied to a BoundedQueue state. -/
def bqRun {T : Type} (cfg : BQConfig) (s : BQState T) (ops : List (QueueOp T)) :
    BQState T :=
  ops.foldl (bqStep cfg) s

/-! ## Message buffer (MessageBuffer, same source file)

MessageBuffer extends BoundedQueue with a byte budget.  Its state adds
the totalBytes counter; the size estimator is a parameter (in the source
it is the length of the JSON serialization times two, with a fixed
fallback, a deterministic function of the item).  totalBytes is an
integer because the source arithmetic can drive it below zero. -/

/-- The state of a MessageBuffer. -/
structure MBState (T : Type) where
  items : List T
  droppedCount : Nat
  dropEvents : List T
  totalBytes : Int
deriving DecidableEq, Repr

/-- A freshly constructed MessageBuffer. -/
def MBState.empty {T : Type} : MBState T := ⟨[], 0, [], 0⟩

/-- The byte-eviction loop of MessageBuffer.enqueue.  While the buffer is
non-empty and the new item would exceed maxBytes, the source calls
this.dequeue() — which dynamically dispatches to MessageBuffer.dequeue
and already subtracts the estimated size — and then subtracts the
estimated size of the dropped item a second time.  Each iteration hence
removes the head h and lowers totalBytes by twice the size of h. -/
def mbEvictLoop {T : Type} (est : T → Nat) (maxBytes : Int) (itemSize : Int) :
    List T → Int → List T × Int
  | [], tb => ([], tb)
  | h :: t, tb =>
    if maxBytes < tb + itemSize then
      mbEvictLoop est maxBytes itemSize t (tb - (est h : Int) - (est h : Int))
    else (h :: t, tb)

/-- The byte-budget phase of MessageBuffer.enqueue: if the item would
exceed maxBytes and the buffer is non-empty, run the eviction loop. -/
def mbEvictPhase {T : Type} (maxBytes : Int) (est : T → Nat) (s : MBState T)
    (item : T) : MBState T :=
  let itemSize : Int := est item
  if maxBytes < s.totalBytes + itemSize ∧ s.items.isEmpty = false then
    let r := mbEvictLoop est maxBytes itemSize s.items s.totalBytes
    { s with items := r.1, totalBytes := r.2 }
  else s

/-- MessageBuffer.enqueue: run the byte-budget eviction phase, delegate
to the base BoundedQueue.enqueue for the count-based limit, and add the
estimated size of the item to totalBytes when it was admitted.  Note
that the base enqueue, under the oldest strategy, shifts the head of the
shared item array directly, without going through MessageBuffer.dequeue,
so totalBytes is not adjusted for an item evicted that way. -/
def mbEnqueue {T : Type} (cfg : BQConfig) (maxBytes : Int) (est : T → Nat)
    (s : MBState T) (item : T) : Bool × MBState T :=
  let itemSize : Int := est item
  let s1 := mbEvictPhase maxBytes est s item
  let r := bqEnqueue cfg ⟨s1.items, s1.droppedCount, s1.dropEvents⟩ item
  let s2 : MBState T :=
    { items := r.2.items
      droppedCount := r.2.droppedCount
      dropEvents := r.2.dropEvents
      totalBytes := s1.totalBytes }
  (r.1, if r.1 then { s2 with totalBytes := s2.totalBytes + itemSize } else s2)

/-- MessageBuffer.dequeue: pop the head and subtract its estimated size. -/
def mbDequeue {T : Type} (est : T → Nat) (s : MBState T) :
    Option T × MBState T :=
  match s.items with
  | [] => (none, s)
  | h :: t => (some h, { s with items := t, totalBytes := s.totalBytes - (est h : Int) })

/-- MessageBuffer.clear: drop all items and reset totalBytes to zero. -/
def mbClear {T : Type} (s : MBState T) : MBState T :=
  { s with items := [], totalBytes := 0 }

/-- The operations a client may perform on a MessageBuffer. -/
inductive MBOp (T : Type) where
  | enqueue (item : T)
  | dequeue
  | clear
deriving Repr

/-- One operation applied to a MessageBuffer state. -/
def mbStep {T : Type} (cfg : BQConfig) (maxBytes : Int) (est : T → Nat)
    (s : MBState T) : MBOp T → MBState T
  | .enqueue x => (mbEnqueue cfg maxBytes est s x).2
  | .dequeue => (mbDequeue est s).2
  | .clear => mbClear s

/-- The sum of the size estimator over the items currently held. -/
def mbHeldBytes {T : Type} (est : T → Nat) (s : MBState T) : Int :=
  (s.items.map fun x => (est x : Int)).sum

/-- Three enqueues (3, 4, 5, identity estimator) into a MessageBuffer with
capacity two and a large byte budget: the third enqueue triggers a
count-based head eviction under the oldest strategy. -/
def mbRunThree : MBState Nat :=
  (mbEnqueue ⟨2, DropStrategy.oldest⟩ 1000 (fun n => n)
    (mbEnqueue ⟨2, DropStrategy.oldest⟩ 1000 (fun n => n)
      (mbEnqueue ⟨2, DropStrategy.oldest⟩ 1000 (fun n => n)
        (MBState.empty (T := Nat)) 3).2 4).2 5).2

/-! ## Errors (cancellation.ts / retry.ts)

JavaScript Error objects of the orchestration layer, as an inductive
type: a plain Error with a message, the CancellationError, and the
RetryableError / NonRetryableError classes that carry an optional cause. -/

/-- The error values thrown by the orchestration utilities. -/
inductive JsError where
  | plain (msg : String)
  | cancellation (msg : String)
  | retryable (msg : String) (cause : Option JsError)
  | nonRetryable (msg : String) (cause : Option JsError)

/-- Whether an error is an instance of NonRetryableError. -/
def JsError.isNonRetryable : JsError → Bool
  | .nonRetryable _ _ => true
  | _ => false

/-- Whether an error is an instance of CancellationError. -/
def JsError.isCancellation : JsError → Bool
  | .cancellation _ => true
  | _ => false

/-- Whether a settled result is a rejection with a CancellationError. -/
def resultIsCancellation {T : Type} : Except JsError T → Bool
  | .error e => e.isCancellation
  | .ok _ => false

/-- Whether an invocation result is a rejection with an error that
withRetry will retry (anything that is not a NonRetryableError). -/
def failsRetryably {T : Type} : Except JsError T → Bool
  | .error e => !e.isNonRetryable
  | .ok _ => false

/-! ## Retry / backoff engine (retry.ts)

JavaScript numbers are modelled as rationals.  The Math.random() draw of
the jitter branch is passed in as an explicit rand argument in [0, 1).
The cancellation token is modelled by the predicate telling, for each
attempt index, whether the token is cancelled by the time that attempt
would begin; the sleep between attempts i and i+1 rejects exactly when
the token is cancelled before attempt i+1 begins. -/

/-- RetryConfig (types.ts). -/
structure RetryConfig where
  maxAttempts : Nat
  initialDelay : ℚ
  maxDelay : ℚ
  backoffMultiplier : ℚ
  jitter : Bool
deriving DecidableEq, Repr

/-- calculateBackoffDelay: exponential backoff, capped at maxDelay, with
an optional plus/minus 25 percent jitter, clamped to be non-negative. -/
def calculateBackoffDelay (attempt : Nat) (config : RetryConfig) (rand : ℚ) : ℚ :=
  let delay := config.initialDelay * config.backoffMultiplier ^ attempt
  let capped := min delay config.maxDelay
  let jittered :=
    if config.jitter then capped + (rand - 1/2) * 2 * (capped * (1/4)) else capped
  max 0 jittered

/-- The message of the RetryableError thrown after all attempts failed. -/
def retryExhaustedMsg (maxAttempts : Nat) : String :=
  s!"Operation failed after {maxAttempts} attempts"

/-- The observable outcome of a withRetry call: the settled promise value
and the number of times the wrapped operation was invoked. -/
structure RetryOutcome (T : Type) where
  result : Except JsError T
  calls : Nat

/-- The attempt loop of withRetry.  The operation is modelled by the
function giving the settled result of its i-th invocation; remaining
counts the attempts still allowed (initially maxAttempts), attempt is the
zero-based index of the current attempt and calls the number of
invocations so far.  Each attempt first runs throwIfCancelled, whose
CancellationError is caught by the surrounding try like any operation
failure; a NonRetryableError is rethrown unchanged; on the last allowed
attempt the loop breaks and the RetryableError wrapper (carrying the last
caught error as cause) is thrown; otherwise the backoff sleep runs, which
rejects with a plain Error when the token cancels before the next
attempt. -/
def withRetryGo {T : Type} (op : Nat → Except JsError T) (cancelled : Nat → Bool)
    (maxAttempts : Nat) : Nat → Nat → Nat → RetryOutcome T
  | 0, _, calls => ⟨.error (.retryable (retryExhaustedMsg maxAttempts) none), calls⟩
  | remaining + 1, attempt, calls =>
    if cancelled attempt then
      if remaining = 0 then
        ⟨.error (.retryable (retryExhaustedMsg maxAttempts)
          (some (.cancellation "Operation was cancelled"))), calls⟩
      else if cancelled (attempt + 1) then
        ⟨.error (.plain "Operation was cancelled"), calls⟩
      else withRetryGo op cancelled maxAttempts remaining (attempt + 1) calls
    else
      match op attempt with
      | .ok v => ⟨.ok v, calls + 1⟩
      | .error e =>
        if e.isNonRetryable then ⟨.error e, calls + 1⟩
        else if remaining = 0 then
          ⟨.error (.retryable (retryExhaustedMsg maxAttempts) (some e)), calls + 1⟩
        else if cancelled (attempt + 1) then
          ⟨.error (.plain "Operation was cancelled"), calls + 1⟩
        else withRetryGo op cancelled maxAttempts remaining (attempt + 1) (calls + 1)

/-- withRetry: run the attempt loop with all maxAttempts attempts
available.  The computed backoff delays do not influence the settled
value or the invocation count, so the outcome depends on the config only
through maxAttempts. -/
def withRetry {T : Type} (op : Nat → Except JsError T) (config : RetryConfig)
    (cancelled : Nat → Bool) : RetryOutcome T :=
  withRetryGo op cancelled config.maxAttempts config.maxAttempts 0 0

/-! ## Concurrency limiter (concurrency-fixed.ts)

The limiter is modelled as a state machine over operation identifiers.
Each operation submitted to execute is a Nat id; the invoked list records
the ids whose underlying function was actually called, and the status map
records each id's observable fate.  Token cancellation is modelled by the
Bool passed at submission (the isCancelled check at the head of execute)
and, for queued operations, by an explicit cancellation event that mirrors
the onCancelled handler (splice out of the queue and reject with
CancellationError); the token-state snapshot passed to a completion event
mirrors the isCancelled re-check of executeImmediate for pulled entries. -/

/-- The observable fate of one operation submitted to the limiter. -/
inductive OpStatus where
  | idle
  | queued
  | running
  | done
  | rejectedFull
  | rejectedCancelled
deriving DecidableEq, Repr

/-- Pointwise update of the status map. -/
def setStatus (f : Nat → OpStatus) (i : Nat) (st : OpStatus) : Nat → OpStatus :=
  fun j => if j = i then st else f j

/-- The state of a ConcurrencyLimiter: its config, the running counter,
the FIFO queue of pending ids, the ids whose operation has been invoked,
and the status of every id. -/
structure LimiterState where
  maxConcurrent : Nat
  queueLimit : Nat
  runningCount : Nat
  queue : List Nat
  invoked : List Nat
  status : Nat → OpStatus

/-- ConcurrencyLimiter.execute.  Already-cancelled tokens reject with
CancellationError before queuing; a free slot runs the operation
immediately (executeImmediate increments running and invokes it); a full
queue rejects with the queue-full error; otherwise the record is pushed
onto the queue. -/
def LimiterState.execute (s : LimiterState) (op : Nat) (tokCancelled : Bool) :
    LimiterState :=
  if tokCancelled then { s with status := setStatus s.status op .rejectedCancelled }
  else if s.runningCount < s.maxConcurrent then
    { s with
        runningCount := s.runningCount + 1
        invoked := s.invoked ++ [op]
        status := setStatus s.status op .running }
  else if s.queueLimit ≤ s.queue.length then
    { s with status := setStatus s.status op .rejectedFull }
  else
    { s with queue := s.queue ++ [op], status := setStatus s.status op .queued }

/-- processQueue after a completion: while capacity is free, shift the
queue head into executeImmediate; a head whose token is cancelled by then
is rejected (running goes up and back down, continuing with the rest),
otherwise it starts running and is invoked. -/
def processQueueAux (tok : Nat → Bool) (maxC : Nat) :
    List Nat → Nat → List Nat → (Nat → OpStatus) →
    List Nat × Nat × List Nat × (Nat → OpStatus)
  | [], running, inv, stat => ([], running, inv, stat)
  | h :: t, running, inv, stat =>
    if maxC ≤ running then (h :: t, running, inv, stat)
    else if tok h then
      processQueueAux tok maxC t running inv (setStatus stat h .rejectedCancelled)
    else (t, running + 1, inv ++ [h], setStatus stat h .running)

/-- Completion of the running operation op: the finally block decrements
running and calls processQueue with the token states at that moment. -/
def LimiterState.complete (s : LimiterState) (op : Nat) (tok : Nat → Bool) :
    LimiterState :=
  let r := processQueueAux tok s.maxConcurrent s.queue (s.runningCount - 1)
    s.invoked (setStatus s.status op .done)
  { s with
      runningCount := r.2.1
      queue := r.1
      invoked := r.2.2.1
      status := r.2.2.2 }

/-- The onCancelled handler of a queued operation: if the record is still
in the queue, splice it out and reject with CancellationError. -/
def LimiterState.cancelQueued (s : LimiterState) (op : Nat) : LimiterState :=
  if op ∈ s.queue then
    { s with
        queue := s.queue.erase op
        status := setStatus s.status op .rejectedCancelled }
  else s

/-- A concrete limiter state used as witness input: one slot (occupied by
operation 7), a queue limit of one (occupied by operation 5). -/
def limiterW : LimiterState := ⟨1, 1, 1, [5], [7], fun _ => OpStatus.idle⟩

/-- The events that can happen to a limiter. -/
inductive LimiterEvent where
  | submit (op : Nat) (tokCancelled : Bool)
  | complete (op : Nat) (tok : Nat → Bool)
  | cancel (op : Nat)

/-- Whether an event is a submission of the given operation id. -/
def LimiterEvent.submitsOp : LimiterEvent → Nat → Bool
  | .submit o _, op => o == op
  | _, _ => false

/-- One limiter event applied to a state. -/
def limiterStep (s : LimiterState) : LimiterEvent → LimiterState
  | .submit op tc => s.execute op tc
  | .complete op tok => s.complete op tok
  | .cancel op => s.cancelQueued op

/-- A sequence of limiter events applied to a state. -/
def limiterRun (s : LimiterState) (evs : List LimiterEvent) : LimiterState :=
  evs.foldl limiterStep s

/-- A concrete event list used as witness input: the running operation 7
completes, pulling queued operation 5 into execution. -/
def limiterEvW : List LimiterEvent := [.complete 7 (fun _ => false)]

/-! ## Persistent connection client send path (ws-client.ts)

Only the send path is modelled: the connection state, the presence of the
transport object, the lastSeq counter and the message buffer are the
fields send reads and writes.  JSON serialization length is a parameter
(a deterministic function of the envelope), as is the buffer size
estimator.  The wall-clock timestamp string is passed in by the caller. -/

/-- ConnectionState (types.ts). -/
inductive ConnState where
  | disconnected
  | connecting
  | connected
  | reconnecting
  | failed
deriving DecidableEq, Repr

/-- The envelope constructed by WSClient.send: version 1, the message
type, the freshly assigned sequence number, the optional correlation id,
the wall-clock timestamp and the payload. -/
structure Envelope (D : Type) where
  v : Nat
  t : String
  seq : Nat
  corr : Option String
  t_wall : String
  data : D
deriving DecidableEq, Repr

/-- The parts of a WSClient that send touches. -/
structure WSClientState (D : Type) where
  connState : ConnState
  wsPresent : Bool
  lastSeq : Nat
  buffer : MBState (Envelope D)

/-- What a send call did: buffered the envelope, transmitted it, or threw
the message-too-large error (reported through onError, returning false). -/
inductive SendAction (D : Type) where
  | buffered (env : Envelope D)
  | transmitted (env : Envelope D)
  | failedTooLarge (env : Envelope D)
deriving DecidableEq, Repr

/-- The envelope a send call constructed. -/
def SendAction.env {D : Type} : SendAction D → Envelope D
  | .buffered e => e
  | .transmitted e => e
  | .failedTooLarge e => e

/-- The MessageBuffer configuration the WSClient constructor uses:
maxSize 1000, drop strategy oldest. -/
def wsBufferCfg : BQConfig := ⟨1000, .oldest⟩

/-- WSClient.send.  If the state is not connected or the transport is
absent, the envelope (with the incremented sequence number) is enqueued
into the message buffer and the enqueue result is returned.  Otherwise
the envelope is serialized; if its serialized length exceeds
maxMessageSize the throw is caught, onError fires and send returns
false; otherwise it is transmitted and send returns true.  In every
branch lastSeq is pre-incremented when the envelope is constructed. -/
def WSClient.send {D : Type} (est : Envelope D → Nat) (serLen : Envelope D → Nat)
    (maxMessageSize : Nat) (maxBufferBytes : Int) (s : WSClientState D)
    (type : String) (data : D) (corr : Option String) (nowWall : String) :
    Bool × WSClientState D × SendAction D :=
  let env : Envelope D := ⟨1, type, s.lastSeq + 1, corr, nowWall, data⟩
  if s.connState ≠ ConnState.connected ∨ s.wsPresent = false then
    let r := mbEnqueue wsBufferCfg maxBufferBytes est s.buffer env
    (r.1, { s with lastSeq := s.lastSeq + 1, buffer := r.2 }, .buffered env)
  else
    if maxMessageSize < serLen env then
      (false, { s with lastSeq := s.lastSeq + 1 }, .failedTooLarge env)
    else
      (true, { s with lastSeq := s.lastSeq + 1 }, .transmitted env)

/-- A send command: message type, payload, correlation id, wall time. -/
structure SendCmd (D : Type) where
  type : String
  data : D
  corr : Option String
  nowWall : String

/-- Run a list of send calls, collecting the constructed envelopes. -/
def WSClient.sendMany {D : Type} (est : Envelope D → Nat) (serLen : Envelope D → Nat)
    (maxMessageSize : Nat) (maxBufferBytes : Int) :
    WSClientState D → List (SendCmd D) → WSClientState D × List (Envelope D)
  | s, [] => (s, [])
  | s, c :: cs =>
    let r := WSClient.send est serLen maxMessageSize maxBufferBytes s
      c.type c.data c.corr c.nowWall
    let rest := WSClient.sendMany est serLen maxMessageSize maxBufferBytes r.2.1 cs
    (rest.1, r.2.2.env :: rest.2)

/-! ## Value smoother (throttle.ts)

Time is modelled by rationals (Date.now() values); the pending timer is
the optional pair of its scheduled fire time and the value captured by
the timeout closure when it was created. -/

/-- The state of a ValueSmoother. -/
structure SmootherState (T : Type) where
  lastValue : Option T
  lastUpdate : ℚ
  pendingAt : Option (ℚ × T)
deriving DecidableEq, Repr

/-- The minimum emission interval of ValueSmoother(maxHz): 1000 divided
by the frequency clamped into the 2 to 10 Hz band. -/
def smootherMinInterval (maxHz : ℚ) : ℚ := 1000 / max 2 (min 10 maxHz)

/-- ValueSmoother.shouldEmit.  The first value ever and forced updates
emit immediately; so does a value arriving once the minimum interval has
elapsed since the last update.  Otherwise, if no timer is pending, one is
scheduled for the remaining time, capturing the value of this call in its
closure; if a timer is already pending the call changes nothing.  In both
of the last two cases the call returns false. -/
def shouldEmit {T : Type} (minInterval : ℚ) (s : SmootherState T) (value : T)
    (force : Bool) (now : ℚ) : Bool × SmootherState T :=
  let tsl := now - s.lastUpdate
  if force || s.lastValue.isNone then
    (true, { s with lastValue := some value, lastUpdate := now })
  else if minInterval ≤ tsl then
    (true, { s with lastValue := some value, lastUpdate := now })
  else
    match s.pendingAt with
    | none => (false, { s with pendingAt := some (now + (minInterval - tsl), value) })
    | some _ => (false, s)

/-- The pending timer firing at the given current time: it clears itself
and installs the value captured at scheduling time as the last value. -/
def smootherFire {T : Type} (s : SmootherState T) (now : ℚ) : SmootherState T :=
  match s.pendingAt with
  | none => s
  | some p => ⟨some p.2, now, none⟩

/-- A concrete three-call run of shouldEmit (minInterval 200): value 1 at
time 0 emits; value 2 at time 10 schedules the pending timer; value 3 at
time 20 arrives while the timer is pending. -/
def smootherW3 : SmootherState Nat :=
  (shouldEmit 200
    ((shouldEmit 200
      ((shouldEmit 200 (⟨none, 0, none⟩ : SmootherState Nat) 1 false 0).2)
      2 false 10).2)
    3 false 20).2

/-! ## Worker channel (worker-channel source file)

The channel state tracks the request id counter, the set of pending
request ids, the shutdown flag, the messages actually posted to the
worker, and whether the worker has been terminated.  Token state is the
Bool passed at the call. -/

/-- The state of a WorkerChannel. -/
structure WorkerChannelState where
  nextId : Nat
  pending : List Nat
  isShutdown : Bool
  posted : List (String × Nat)
  terminated : Bool
deriving DecidableEq, Repr

/-- WorkerChannel.sendMessage: fails with the plain worker-is-shutdown
error when the channel is shut down, with CancellationError when the
token is already cancelled; otherwise allocates the next id, registers
the pending request and posts the message to the worker, returning the
id of the in-flight request. -/
def sendMessage (s : WorkerChannelState) (type : String) (tokCancelled : Bool) :
    Except JsError Nat × WorkerChannelState :=
  if s.isShutdown then (.error (.plain "Worker is shutdown"), s)
  else if tokCancelled then (.error (.cancellation "Operation was cancelled"), s)
  else
    (.ok s.nextId,
      { s with
          nextId := s.nextId + 1
          pending := s.pending ++ [s.nextId]
          posted := s.posted ++ [(type, s.nextId)] })

/-- WorkerChannel.computeProgress: guarded by the shutdown flag, then a
COMPUTE_PROGRESS request through sendMessage. -/
def computeProgress (s : WorkerChannelState) (tokCancelled : Bool) :
    Except JsError Nat × WorkerChannelState :=
  if s.isShutdown then (.error (.plain "Worker is shutdown"), s)
  else sendMessage s "COMPUTE_PROGRESS" tokCancelled

/-- WorkerChannel.computeETA: guarded by the shutdown flag, then a
COMPUTE_ETA request through sendMessage. -/
def computeETA (s : WorkerChannelState) (tokCancelled : Bool) :
    Except JsError Nat × WorkerChannelState :=
  if s.isShutdown then (.error (.plain "Worker is shutdown"), s)
  else sendMessage s "COMPUTE_ETA" tokCancelled

/-- WorkerChannel.initialize: an INIT request through sendMessage. -/
def initRequest (s : WorkerChannelState) : Except JsError Nat × WorkerChannelState :=
  sendMessage s "INIT" false

/-- WorkerChannel.shutdown: a no-op on an already shut-down channel;
otherwise sets the shutdown flag, rejects every outstanding request with
the worker-is-shutting-down error and clears the pending set, then tries
to send the SHUTDOWN message through sendMessage (whose own shutdown
guard — the flag was just set — throws, the error being swallowed by the
catch), and finally terminates the worker.  Returns the list of
per-request rejections alongside the final state. -/
def shutdown (s : WorkerChannelState) : List (Nat × String) × WorkerChannelState :=
  if s.isShutdown then ([], s)
  else
    let s1 := { s with isShutdown := true }
    let rejections := s1.pending.map fun id => (id, "Worker is shutting down")
    let s2 := { s1 with pending := [] }
    let s3 := (sendMessage s2 "SHUTDOWN" false).2
    (rejections, { s3 with terminated := true })

/-! ## Queue and buffer theorems -/

/-- Helper: a single BoundedQueue operation preserves the size bound when
the capacity is at least one. -/
theorem bqStep_length_le {T : Type} (cfg : BQConfig) (h1 : 1 ≤ cfg.maxSize)
    (s : BQState T) (hs : s.items.length ≤ cfg.maxSize) (op : QueueOp T) :
    (bqStep cfg s op).items.length ≤ cfg.maxSize := by
  cases op with
  | enqueue x =>
    unfold bqStep bqEnqueue
    by_cases hlt : s.items.length < cfg.maxSize
    · simp only [hlt, if_true]
      simp only [List.length_append, List.length_cons, List.length_nil]
      omega
    · simp only [hlt, if_false]
      cases hds : cfg.dropStrategy with
      | oldest =>
        cases hitems : s.items with
        | nil => simpa using h1
        | cons d rest =>
          have hlen : s.items.length = rest.length + 1 := by
            rw [hitems]; simp
          simp only []
          simpa using by omega
      | newest => simpa using hs
      | reject => simpa using hs
  | dequeue =>
    unfold bqStep bqDequeue
    cases hitems : s.items with
    | nil => simp [hitems]
    | cons h t =>
      have hlen : s.items.length = t.length + 1 := by rw [hitems]; simp
      simp only []
      simp
      omega
  | clear => simp [bqStep, bqClear]
  | drain => simp [bqStep, bqDrain]

/-- Helper: running any operation sequence from a size-bounded state keeps
the queue size bounded, when the capacity is at least one. -/
theorem bqRun_length_le {T : Type} (cfg : BQConfig) (h1 : 1 ≤ cfg.maxSize)
    (ops : List (QueueOp T)) :
    ∀ s : BQState T, s.items.length ≤ cfg.maxSize →
      (bqRun cfg s ops).items.length ≤ cfg.maxSize := by
  induction ops with
  | nil => intro s hs; simpa [bqRun] using hs
  | cons op rest ih =>
    intro s hs
    have hstep := bqStep_length_le cfg h1 s hs op
    simpa [bqRun] using ih (bqStep cfg s op) hstep

/-- C5 counterexample: with maxSize zero and the oldest drop strategy, a
single enqueue on a fresh BoundedQueue leaves one item in the queue, so
the claimed invariant that the size never exceeds maxSize fails for that
configuration: the overflow branch shifts the empty item array (getting
undefined), pushes the new item, and reports no drop. -/
theorem c5_counterexample :
    ¬ ((bqEnqueue ⟨0, DropStrategy.oldest⟩ (BQState.empty (T := Nat)) 7).2.items.length ≤
        (⟨0, DropStrategy.oldest⟩ : BQConfig).maxSize) := by
  decide

/-- C5 (amended): for every BoundedQueue whose maxSize is at least one,
the size never exceeds maxSize along any operation sequence started from
a fresh queue, and an enqueue on a full queue behaves per strategy:
oldest evicts the head, admits the new item, returns true and increments
droppedCount; newest rejects the incoming item, returns false and
increments droppedCount; reject returns false and changes nothing. -/
theorem c5_boundedQueue_invariants {T : Type} (cfg : BQConfig)
    (h1 : 1 ≤ cfg.maxSize) :
    (∀ ops : List (QueueOp T), (bqRun cfg BQState.empty ops).items.length ≤ cfg.maxSize) ∧
    (∀ (s : BQState T) (x : T), s.items.length = cfg.maxSize →
      (cfg.dropStrategy = .oldest →
        (bqEnqueue cfg s x).1 = true ∧
        (bqEnqueue cfg s x).2.items = s.items.tail ++ [x] ∧
        (bqEnqueue cfg s x).2.droppedCount = s.droppedCount + 1) ∧
      (cfg.dropStrategy = .newest →
        (bqEnqueue cfg s x).1 = false ∧
        (bqEnqueue cfg s x).2.items = s.items ∧
        (bqEnqueue cfg s x).2.droppedCount = s.droppedCount + 1) ∧
      (cfg.dropStrategy = .reject →
        (bqEnqueue cfg s x).1 = false ∧ (bqEnqueue cfg s x).2 = s)) := by
  constructor
  · intro ops
    exact bqRun_length_le cfg h1 ops BQState.empty (by simp [BQState.empty])
  · intro s x hfull
    refine ⟨fun hds => ?_, fun hds => ?_, fun hds => ?_⟩ <;>
      · cases hitems : s.items with
        | nil => rw [hitems] at hfull; simp at hfull; omega
        | cons d rest =>
          have hnlt2 : ¬ (rest.length + 1 < cfg.maxSize) := by
            have hlen : s.items.length = rest.length + 1 := by rw [hitems]; simp
            omega
          simp [bqEnqueue, hds, hitems, hnlt2]

/-- C5 witness: the amended theorem applied to a concrete configuration
with capacity two and the oldest drop strategy. -/
theorem c5_witness :
    1 ≤ (⟨2, DropStrategy.oldest⟩ : BQConfig).maxSize ∧
    ((∀ ops : List (QueueOp Nat),
        (bqRun ⟨2, DropStrategy.oldest⟩ BQState.empty ops).items.length ≤
          (⟨2, DropStrategy.oldest⟩ : BQConfig).maxSize) ∧
      (∀ (s : BQState Nat) (x : Nat),
          s.items.length = (⟨2, DropStrategy.oldest⟩ : BQConfig).maxSize →
        ((⟨2, DropStrategy.oldest⟩ : BQConfig).dropStrategy = .oldest →
          (bqEnqueue ⟨2, DropStrategy.oldest⟩ s x).1 = true ∧
          (bqEnqueue ⟨2, DropStrategy.oldest⟩ s x).2.items = s.items.tail ++ [x] ∧
          (bqEnqueue ⟨2, DropStrategy.oldest⟩ s x).2.droppedCount = s.droppedCount + 1) ∧
        ((⟨2, DropStrategy.oldest⟩ : BQConfig).dropStrategy = .newest →
          (bqEnqueue ⟨2, DropStrategy.oldest⟩ s x).1 = false ∧
          (bqEnqueue ⟨2, DropStrategy.oldest⟩ s x).2.items = s.items ∧
          (bqEnqueue ⟨2, DropStrategy.oldest⟩ s x).2.droppedCount = s.droppedCount + 1) ∧
        ((⟨2, DropStrategy.oldest⟩ : BQConfig).dropStrategy = .reject →
          (bqEnqueue ⟨2, DropStrategy.oldest⟩ s x).1 = false ∧
          (bqEnqueue ⟨2, DropStrategy.oldest⟩ s x).2 = s))) :=
  ⟨by decide, c5_boundedQueue_invariants (T := Nat) ⟨2, DropStrategy.oldest⟩ (by decide)⟩

/-- C1: the totalBytes bookkeeping of MessageBuffer does not match the
sum of the estimated sizes of the held items.  Two independent defects:
the byte-eviction loop subtracts the estimated size of each evicted item
twice (once inside the dynamically dispatched dequeue and once in the
loop body), and a count-based head eviction under the oldest strategy
bypasses MessageBuffer.dequeue entirely, never subtracting the evicted
size.  With maxBytes 10 and the identity estimator, enqueuing 8 then 8
leaves the buffer holding one item of size 8 while totalBytes is 0; with
a large byte budget and maxSize 2, enqueuing 3, 4, 5 leaves items 4 and 5
(sum 9) while totalBytes is 12. -/
theorem c1_totalBytes_desync :
    ((mbEnqueue ⟨100, DropStrategy.oldest⟩ 10 (fun n => n)
        (mbEnqueue ⟨100, DropStrategy.oldest⟩ 10 (fun n => n)
          (MBState.empty (T := Nat)) 8).2 8).2.items = [8] ∧
      (mbEnqueue ⟨100, DropStrategy.oldest⟩ 10 (fun n => n)
        (mbEnqueue ⟨100, DropStrategy.oldest⟩ 10 (fun n => n)
          (MBState.empty (T := Nat)) 8).2 8).2.totalBytes = 0 ∧
      (mbEnqueue ⟨100, DropStrategy.oldest⟩ 10 (fun n => n)
        (mbEnqueue ⟨100, DropStrategy.oldest⟩ 10 (fun n => n)
          (MBState.empty (T := Nat)) 8).2 8).2.totalBytes ≠
        mbHeldBytes (fun n => n)
          (mbEnqueue ⟨100, DropStrategy.oldest⟩ 10 (fun n => n)
            (mbEnqueue ⟨100, DropStrategy.oldest⟩ 10 (fun n => n)
              (MBState.empty (T := Nat)) 8).2 8).2) ∧
    ((mbRunThree).items = [4, 5] ∧ (mbRunThree).totalBytes = 12 ∧
      (mbRunThree).totalBytes ≠ mbHeldBytes (fun n => n) mbRunThree) := by
  constructor
  · refine ⟨by decide, by decide, by decide⟩
  · refine ⟨by decide, by decide, by decide⟩

/-- C10: items removed by the byte-budget eviction phase of
MessageBuffer.enqueue are dropped silently — the eviction phase leaves
droppedCount and the onDrop event list untouched — and the droppedCount
and onDrop events of the whole enqueue are exactly those produced by the
base BoundedQueue.enqueue run on the post-eviction state, so byte-pressure
drops are invisible to the drop-reporting surface.  As a concrete
instance, a buffer holding items 4 and 5 (bytes 9) that byte-evicts item
4 to admit item 9 ends with droppedCount still zero and no onDrop events. -/
theorem c10_byteEviction_silent :
    (∀ (T : Type) (cfg : BQConfig) (maxBytes : Int) (est : T → Nat)
        (s : MBState T) (item : T),
      (mbEvictPhase maxBytes est s item).droppedCount = s.droppedCount ∧
      (mbEvictPhase maxBytes est s item).dropEvents = s.dropEvents ∧
      (mbEnqueue cfg maxBytes est s item).2.droppedCount =
        (bqEnqueue cfg
          ⟨(mbEvictPhase maxBytes est s item).items,
            (mbEvictPhase maxBytes est s item).droppedCount,
            (mbEvictPhase maxBytes est s item).dropEvents⟩ item).2.droppedCount ∧
      (mbEnqueue cfg maxBytes est s item).2.dropEvents =
        (bqEnqueue cfg
          ⟨(mbEvictPhase maxBytes est s item).items,
            (mbEvictPhase maxBytes est s item).droppedCount,
            (mbEvictPhase maxBytes est s item).dropEvents⟩ item).2.dropEvents) ∧
    ((mbEnqueue ⟨100, DropStrategy.oldest⟩ 10 (fun n => n)
        ⟨[4, 5], 0, [], 9⟩ (9 : Nat)).2.items = [5, 9] ∧
      (mbEnqueue ⟨100, DropStrategy.oldest⟩ 10 (fun n => n)
        ⟨[4, 5], 0, [], 9⟩ (9 : Nat)).2.droppedCount = 0 ∧
      (mbEnqueue ⟨100, DropStrategy.oldest⟩ 10 (fun n => n)
        ⟨[4, 5], 0, [], 9⟩ (9 : Nat)).2.dropEvents = []) := by
  constructor
  · intro T cfg maxBytes est s item
    refine ⟨?_, ?_, ?_, ?_⟩
    · by_cases h : maxBytes < s.totalBytes + (est item : Int) ∧ s.items.isEmpty = false
      · simp [mbEvictPhase, h]
      · simp only [mbEvictPhase]
        rw [if_neg h]
    · by_cases h : maxBytes < s.totalBytes + (est item : Int) ∧ s.items.isEmpty = false
      · simp [mbEvictPhase, h]
      · simp only [mbEvictPhase]
        rw [if_neg h]
    · unfold mbEnqueue
      cases hr : (bqEnqueue cfg
          ⟨(mbEvictPhase maxBytes est s item).items,
            (mbEvictPhase maxBytes est s item).droppedCount,
            (mbEvictPhase maxBytes est s item).dropEvents⟩ item) with
      | mk ok st =>
        simp only [hr]
        cases ok <;> rfl
    · unfold mbEnqueue
      cases hr : (bqEnqueue cfg
          ⟨(mbEvictPhase maxBytes est s item).items,
            (mbEvictPhase maxBytes est s item).droppedCount,
            (mbEvictPhase maxBytes est s item).dropEvents⟩ item) with
      | mk ok st =>
        simp only [hr]
        cases ok <;> rfl
  · refine ⟨by decide, by decide, by decide⟩

/-! ## Retry theorems -/

/-- Helper: with no cancellation, if the first k attempts (from the given
offset) fail retryably and attempt k succeeds within the allowed budget,
the loop returns the success value after exactly k further invocations. -/
theorem withRetryGo_ok {T : Type} (op : Nat → Except JsError T) (M : Nat) :
    ∀ (k remaining attempt calls : Nat) (v : T), k < remaining →
      (∀ i, i < k → failsRetryably (op (attempt + i)) = true) →
      op (attempt + k) = .ok v →
      withRetryGo op (fun _ => false) M remaining attempt calls =
        ⟨.ok v, calls + (k + 1)⟩ := by
  intro k
  induction k with
  | zero =>
    intro remaining attempt calls v hk hfail hok
    obtain ⟨r, rfl⟩ : ∃ r, remaining = r + 1 := ⟨remaining - 1, by omega⟩
    rw [Nat.add_zero] at hok
    simp [withRetryGo, hok]
  | succ k ih =>
    intro remaining attempt calls v hk hfail hok
    obtain ⟨r, rfl⟩ : ∃ r, remaining = r + 1 := ⟨remaining - 1, by omega⟩
    have h0 : failsRetryably (op (attempt + 0)) = true := hfail 0 (by omega)
    rw [Nat.add_zero] at h0
    obtain ⟨e, he, hnr⟩ : ∃ e, op attempt = .error e ∧ e.isNonRetryable = false := by
      cases hcase : op attempt with
      | ok w => rw [hcase] at h0; simp [failsRetryably] at h0
      | error e =>
        rw [hcase] at h0
        simp [failsRetryably] at h0
        exact ⟨e, rfl, h0⟩
    have hr0 : r ≠ 0 := by omega
    have hrec := ih r (attempt + 1) (calls + 1) v (by omega)
      (fun i hi => by
        have := hfail (i + 1) (by omega)
        rwa [show attempt + (i + 1) = attempt + 1 + i by omega] at this)
      (by rwa [show attempt + 1 + k = attempt + (k + 1) by omega])
    simp only [withRetryGo, he, hnr, hr0, Bool.false_eq_true, if_false]
    rw [hrec]
    congr 1
    omega

/-- Helper: with no cancellation, if every attempt in the remaining budget
fails retryably, the loop ends with the RetryableError wrapper carrying
the error of the final attempt as cause, after exactly remaining further
invocations. -/
theorem withRetryGo_exhausted {T : Type} (op : Nat → Except JsError T) (M : Nat) :
    ∀ (r attempt calls : Nat) (e : JsError),
      (∀ i, i < r + 1 → failsRetryably (op (attempt + i)) = true) →
      op (attempt + r) = .error e →
      withRetryGo op (fun _ => false) M (r + 1) attempt calls =
        ⟨.error (.retryable (retryExhaustedMsg M) (some e)), calls + (r + 1)⟩ := by
  intro r
  induction r with
  | zero =>
    intro attempt calls e hfail hlast
    rw [Nat.add_zero] at hlast
    have h0 := hfail 0 (by omega)
    rw [Nat.add_zero, hlast] at h0
    simp [failsRetryably] at h0
    simp [withRetryGo, hlast, h0]
  | succ r ih =>
    intro attempt calls e hfail hlast
    have h0 : failsRetryably (op (attempt + 0)) = true := hfail 0 (by omega)
    rw [Nat.add_zero] at h0
    obtain ⟨e0, he0, hnr0⟩ : ∃ e0, op attempt = .error e0 ∧ e0.isNonRetryable = false := by
      cases hcase : op attempt with
      | ok w => rw [hcase] at h0; simp [failsRetryably] at h0
      | error e0 =>
        rw [hcase] at h0
        simp [failsRetryably] at h0
        exact ⟨e0, rfl, h0⟩
    have hrec := ih (attempt + 1) (calls + 1) e
      (fun i hi => by
        have := hfail (i + 1) (by omega)
        rwa [show attempt + (i + 1) = attempt + 1 + i by omega] at this)
      (by rwa [show attempt + 1 + r = attempt + (r + 1) by omega])
    rw [withRetryGo.eq_def]
    simp only [he0, hnr0, Nat.succ_ne_zero, Bool.false_eq_true, if_false]
    rw [hrec]
    congr 1
    omega

/-- C2: without a cancellation token, withRetry on an operation that fails
retryably exactly k times and then succeeds, with k below maxAttempts,
invokes the operation exactly k + 1 times and resolves with the success
value; on an operation that always fails retryably it invokes the
operation exactly maxAttempts times and rejects with the RetryableError
whose message reports maxAttempts and whose cause is the last underlying
error; an operation that throws a NonRetryableError on the first attempt
is invoked exactly once and that error is rethrown unchanged. -/
theorem c2_withRetry_counts {T : Type} (op : Nat → Except JsError T)
    (config : RetryConfig) :
    (∀ (k : Nat) (v : T), k < config.maxAttempts →
      (∀ i, i < k → failsRetryably (op i) = true) →
      op k = .ok v →
      withRetry op config (fun _ => false) = ⟨.ok v, k + 1⟩) ∧
    (∀ e : JsError, 1 ≤ config.maxAttempts →
      (∀ i, failsRetryably (op i) = true) →
      op (config.maxAttempts - 1) = .error e →
      withRetry op config (fun _ => false) =
        ⟨.error (.retryable (retryExhaustedMsg config.maxAttempts) (some e)),
          config.maxAttempts⟩) ∧
    (∀ (msg : String) (cause : Option JsError), 1 ≤ config.maxAttempts →
      op 0 = .error (.nonRetryable msg cause) →
      withRetry op config (fun _ => false) =
        ⟨.error (.nonRetryable msg cause), 1⟩) := by
  refine ⟨?_, ?_, ?_⟩
  · intro k v hk hfail hok
    have := withRetryGo_ok op config.maxAttempts k config.maxAttempts 0 0 v hk
      (fun i hi => by simpa using hfail i hi) (by simpa using hok)
    simpa [withRetry] using this
  · intro e h1 hfail hlast
    obtain ⟨r, hr⟩ : ∃ r, config.maxAttempts = r + 1 := ⟨config.maxAttempts - 1, by omega⟩
    have := withRetryGo_exhausted op config.maxAttempts r 0 0 e
      (fun i _ => by simpa using hfail i)
      (by rw [Nat.zero_add]; rw [hr] at hlast; simpa using hlast)
    simpa [withRetry, hr] using this
  · intro msg cause h1 h0
    obtain ⟨r, hr⟩ : ∃ r, config.maxAttempts = r + 1 := ⟨config.maxAttempts - 1, by omega⟩
    rw [withRetry, hr]
    simp [withRetryGo, h0, JsError.isNonRetryable]

/-- C2 witness: concrete runs of withRetry exercising all three parts of
the theorem at maxAttempts 5, 3 and 5 respectively. -/
theorem c2_witness :
    ((2 < 5 ∧ (∀ i, i < 2 →
        failsRetryably ((fun j => if j < 2 then .error (.plain "boom")
          else (.ok 42 : Except JsError Nat)) i) = true)) ∧
      withRetry (fun j => if j < 2 then .error (.plain "boom")
          else (.ok 42 : Except JsError Nat)) ⟨5, 1000, 30000, 2, true⟩
        (fun _ => false) = ⟨.ok 42, 3⟩) ∧
    (withRetry (fun _ => (.error (.plain "x") : Except JsError Nat))
        ⟨3, 1000, 30000, 2, true⟩ (fun _ => false) =
      ⟨.error (.retryable (retryExhaustedMsg 3) (some (.plain "x"))), 3⟩) ∧
    (withRetry (fun _ => (.error (.nonRetryable "nope" none) : Except JsError Nat))
        ⟨5, 1000, 30000, 2, true⟩ (fun _ => false) =
      ⟨.error (.nonRetryable "nope" none), 1⟩) :=
  ⟨⟨⟨by decide, by decide⟩,
    (c2_withRetry_counts (fun j => if j < 2 then .error (.plain "boom")
        else (.ok 42 : Except JsError Nat)) ⟨5, 1000, 30000, 2, true⟩).1
      2 42 (by decide) (by decide) rfl⟩,
    (c2_withRetry_counts (fun _ => (.error (.plain "x") : Except JsError Nat))
        ⟨3, 1000, 30000, 2, true⟩).2.1
      (.plain "x") (by decide) (fun i => rfl) rfl,
    (c2_withRetry_counts (fun _ => (.error (.nonRetryable "nope" none) : Except JsError Nat))
        ⟨5, 1000, 30000, 2, true⟩).2.2
      "nope" none (by decide) rfl⟩

/-- C3: for every attempt index and every RetryConfig with non-negative
delay fields, calculateBackoffDelay with jitter disabled equals
min(initialDelay * backoffMultiplier ^ attempt, maxDelay); with jitter
enabled (random draw in [0, 1)) the result lies between 0.75 and 1.25
times that unjittered value and is non-negative. -/
theorem c3_backoffDelay (n : Nat) (config : RetryConfig) (rand : ℚ)
    (hi : 0 ≤ config.initialDelay) (hm : 0 ≤ config.backoffMultiplier)
    (hd : 0 ≤ config.maxDelay) (hr0 : 0 ≤ rand) (hr1 : rand < 1) :
    (config.jitter = false →
      calculateBackoffDelay n config rand =
        min (config.initialDelay * config.backoffMultiplier ^ n) config.maxDelay) ∧
    (config.jitter = true →
      (3 / 4 : ℚ) *
          min (config.initialDelay * config.backoffMultiplier ^ n) config.maxDelay ≤
        calculateBackoffDelay n config rand ∧
      calculateBackoffDelay n config rand ≤
        (5 / 4 : ℚ) *
          min (config.initialDelay * config.backoffMultiplier ^ n) config.maxDelay ∧
      0 ≤ calculateBackoffDelay n config rand) := by
  have hu : 0 ≤ min (config.initialDelay * config.backoffMultiplier ^ n) config.maxDelay :=
    le_min (mul_nonneg hi (pow_nonneg hm n)) hd
  set u := min (config.initialDelay * config.backoffMultiplier ^ n) config.maxDelay with hudef
  constructor
  · intro hj
    unfold calculateBackoffDelay
    rw [hj]
    simp only [Bool.false_eq_true, if_false, ← hudef]
    exact max_eq_right hu
  · intro hj
    unfold calculateBackoffDelay
    rw [hj]
    simp only [if_true, ← hudef]
    have hval : u + (rand - 1 / 2) * 2 * (u * (1 / 4)) = u * (3 / 4 + rand / 2) := by
      ring
    have hnn : 0 ≤ u * (3 / 4 + rand / 2) := by nlinarith
    rw [hval, max_eq_right hnn]
    refine ⟨by nlinarith, by nlinarith, hnn⟩

/-- C3 witness: the theorem applied to attempt 2, a concrete config with
jitter enabled, and the random draw one half (where the jitter term
vanishes and the delay is exactly the capped exponential value). -/
theorem c3_witness :
    ((0 : ℚ) ≤ 100 ∧ (0 : ℚ) ≤ 2 ∧ (0 : ℚ) ≤ 1000 ∧ (0 : ℚ) ≤ 1 / 2 ∧ (1 / 2 : ℚ) < 1) ∧
    (((⟨3, 100, 1000, 2, true⟩ : RetryConfig).jitter = false →
      calculateBackoffDelay 2 ⟨3, 100, 1000, 2, true⟩ (1 / 2) =
        min ((100 : ℚ) * 2 ^ 2) 1000) ∧
    ((⟨3, 100, 1000, 2, true⟩ : RetryConfig).jitter = true →
      (3 / 4 : ℚ) * min ((100 : ℚ) * 2 ^ 2) 1000 ≤
        calculateBackoffDelay 2 ⟨3, 100, 1000, 2, true⟩ (1 / 2) ∧
      calculateBackoffDelay 2 ⟨3, 100, 1000, 2, true⟩ (1 / 2) ≤
        (5 / 4 : ℚ) * min ((100 : ℚ) * 2 ^ 2) 1000 ∧
      0 ≤ calculateBackoffDelay 2 ⟨3, 100, 1000, 2, true⟩ (1 / 2))) :=
  ⟨⟨by norm_num, by norm_num, by norm_num, by norm_num, by norm_num⟩,
    c3_backoffDelay 2 ⟨3, 100, 1000, 2, true⟩ (1 / 2) (by norm_num) (by norm_num)
      (by norm_num) (by norm_num) (by norm_num)⟩

/-- C4 counterexample: a token cancelled before the first attempt of a
maxAttempts-3 call keeps the operation from ever being invoked, but the
call rejects with the plain Error thrown by the interrupted sleep, not
with a CancellationError: the CancellationError raised by
throwIfCancelled is caught by the attempt handler like any failure, and
the subsequent backoff sleep rejects with new Error("Operation was
cancelled"). -/
theorem c4_counterexample :
    (withRetry (fun _ => (.ok 42 : Except JsError Nat)) ⟨3, 1000, 30000, 2, true⟩
        (fun _ => true)).calls = 0 ∧
    (withRetry (fun _ => (.ok 42 : Except JsError Nat)) ⟨3, 1000, 30000, 2, true⟩
        (fun _ => true)).result = .error (.plain "Operation was cancelled") ∧
    resultIsCancellation
      (withRetry (fun _ => (.ok 42 : Except JsError Nat)) ⟨3, 1000, 30000, 2, true⟩
        (fun _ => true)).result = false :=
  ⟨rfl, rfl, rfl⟩

/-- Helper: once the (monotone) token is first cancelled at attempt index
k within the allowed budget, and all earlier attempts failed retryably,
the loop performs exactly k invocations and rejects with the plain sleep
error — except when the cancelled attempt is the only remaining one, in
which case the RetryableError wrapper carries the CancellationError as
cause. -/
theorem withRetryGo_cancelled {T : Type} (op : Nat → Except JsError T)
    (cancelled : Nat → Bool) (M : Nat)
    (hmono : ∀ i, cancelled i = true → cancelled (i + 1) = true) :
    ∀ (k remaining attempt calls : Nat),
      k < remaining →
      cancelled (attempt + k) = true →
      (∀ i, i < k → cancelled (attempt + i) = false) →
      (∀ i, i < k → failsRetryably (op (attempt + i)) = true) →
      withRetryGo op cancelled M remaining attempt calls =
        ⟨if k = 0 ∧ remaining = 1 then
            .error (.retryable (retryExhaustedMsg M)
              (some (.cancellation "Operation was cancelled")))
          else .error (.plain "Operation was cancelled"), calls + k⟩ := by
  intro k
  induction k with
  | zero =>
    intro remaining attempt calls hk hck hbefore hfail
    obtain ⟨r, rfl⟩ : ∃ r, remaining = r + 1 := ⟨remaining - 1, by omega⟩
    rw [Nat.add_zero] at hck
    cases r with
    | zero => simp [withRetryGo, hck]
    | succ r =>
      have hc1 : cancelled (attempt + 1) = true := hmono attempt hck
      simp [withRetryGo, hck, hc1]
  | succ k ih =>
    intro remaining attempt calls hk hck hbefore hfail
    obtain ⟨r, rfl⟩ : ∃ r, remaining = r + 1 := ⟨remaining - 1, by omega⟩
    have hc0 : cancelled attempt = false := by
      have := hbefore 0 (by omega)
      rwa [Nat.add_zero] at this
    have h0 : failsRetryably (op (attempt + 0)) = true := hfail 0 (by omega)
    rw [Nat.add_zero] at h0
    obtain ⟨e, he, hnr⟩ : ∃ e, op attempt = .error e ∧ e.isNonRetryable = false := by
      cases hcase : op attempt with
      | ok w => rw [hcase] at h0; simp [failsRetryably] at h0
      | error e =>
        rw [hcase] at h0
        simp [failsRetryably] at h0
        exact ⟨e, rfl, h0⟩
    have hrne : r ≠ 0 := by omega
    by_cases hk0 : k = 0
    · subst hk0
      have hc1 : cancelled (attempt + 1) = true := by
        rwa [show attempt + (0 + 1) = attempt + 1 by omega] at hck
      rw [withRetryGo.eq_def]
      simp only [hc0, Bool.false_eq_true, if_false, he, hnr, hrne,
        Nat.succ_ne_zero, hc1, if_true]
      simp only [false_and, if_false]
    · have hc1 : cancelled (attempt + 1) = false := hbefore 1 (by omega)
      have hrec := ih r (attempt + 1) (calls + 1) (by omega)
        (by rw [show attempt + 1 + k = attempt + (k + 1) by omega]; exact hck)
        (fun i hi => by
          have := hbefore (i + 1) (by omega)
          rwa [show attempt + (i + 1) = attempt + 1 + i by omega] at this)
        (fun i hi => by
          have := hfail (i + 1) (by omega)
          rwa [show attempt + (i + 1) = attempt + 1 + i by omega] at this)
      rw [withRetryGo.eq_def]
      simp only [hc0, Bool.false_eq_true, if_false, he, hnr, hrne,
        Nat.succ_ne_zero, hc1]
      rw [hrec]
      have h1 : ¬ (k = 0 ∧ r = 1) := by omega
      rw [if_neg h1]
      simp only [false_and, if_false]
      rw [show calls + (k + 1) = calls + 1 + k from by omega]

/-- C4 (amended): once the cancellation token is (monotonely) cancelled
before attempt k begins, with all earlier attempts failing retryably, the
operation is not invoked for that attempt or any later one (exactly k
invocations); but the call does not reject with the CancellationError:
it rejects with the plain Error("Operation was cancelled") thrown by the
interrupted backoff sleep, except when the cancelled attempt is the only
allowed attempt (k = 0, maxAttempts = 1), where it rejects with the
RetryableError wrapper carrying the CancellationError as cause. -/
theorem c4_cancellation_behavior {T : Type} (op : Nat → Except JsError T)
    (config : RetryConfig) (cancelled : Nat → Bool) (k : Nat)
    (hmono : ∀ i, cancelled i = true → cancelled (i + 1) = true)
    (hk : cancelled k = true)
    (hbefore : ∀ i, i < k → cancelled i = false)
    (hklt : k < config.maxAttempts)
    (hfail : ∀ i, i < k → failsRetryably (op i) = true) :
    (withRetry op config cancelled).calls = k ∧
    (withRetry op config cancelled).result =
      (if k = 0 ∧ config.maxAttempts = 1 then
        .error (.retryable (retryExhaustedMsg config.maxAttempts)
          (some (.cancellation "Operation was cancelled")))
      else .error (.plain "Operation was cancelled")) := by
  have := withRetryGo_cancelled op cancelled config.maxAttempts hmono k
    config.maxAttempts 0 0 hklt (by simpa using hk)
    (fun i hi => by simpa using hbefore i hi)
    (fun i hi => by simpa using hfail i hi)
  rw [withRetry, this]
  exact ⟨by simp, rfl⟩

/-- C4 witness: the amended theorem at a concrete run — the operation
fails on attempt 0, the token cancels before attempt 1 of a maxAttempts-3
call; exactly one invocation happens and the rejection is the plain
sleep error. -/
theorem c4_witness :
    ((∀ i, (fun j => decide (1 ≤ j)) i = true → (fun j => decide (1 ≤ j)) (i + 1) = true) ∧
      (fun j => decide (1 ≤ j)) 1 = true ∧
      (∀ i, i < 1 → (fun j => decide (1 ≤ j)) i = false) ∧
      1 < (⟨3, 1000, 30000, 2, true⟩ : RetryConfig).maxAttempts ∧
      (∀ i, i < 1 →
        failsRetryably ((fun _ => (.error (.plain "boom") : Except JsError Nat)) i) = true)) ∧
    ((withRetry (fun _ => (.error (.plain "boom") : Except JsError Nat))
        ⟨3, 1000, 30000, 2, true⟩ (fun j => decide (1 ≤ j))).calls = 1 ∧
      (withRetry (fun _ => (.error (.plain "boom") : Except JsError Nat))
          ⟨3, 1000, 30000, 2, true⟩ (fun j => decide (1 ≤ j))).result =
        (if 1 = 0 ∧ (⟨3, 1000, 30000, 2, true⟩ : RetryConfig).maxAttempts = 1 then
          .error (.retryable (retryExhaustedMsg (⟨3, 1000, 30000, 2, true⟩ : RetryConfig).maxAttempts)
            (some (.cancellation "Operation was cancelled")))
        else .error (.plain "Operation was cancelled"))) :=
  ⟨⟨fun i h => by simp only [decide_eq_true_eq] at h ⊢; omega,
      by decide, by decide, by decide, by decide⟩,
    c4_cancellation_behavior (fun _ => (.error (.plain "boom") : Except JsError Nat))
      ⟨3, 1000, 30000, 2, true⟩ (fun j => decide (1 ≤ j)) 1
      (fun i h => by simp only [decide_eq_true_eq] at h ⊢; omega)
      (by decide) (by decide) (by decide) (by decide)⟩

/-! ## Concurrency limiter theorems -/

/-- Helper: processQueue only ever pulls ids out of the queue, so an id
absent from the queue and the invoked list stays absent from both. -/
theorem processQueueAux_not_mem (tok : Nat → Bool) (maxC : Nat) (op : Nat) :
    ∀ (q : List Nat) (running : Nat) (inv : List Nat) (stat : Nat → OpStatus),
      op ∉ q → op ∉ inv →
      op ∉ (processQueueAux tok maxC q running inv stat).1 ∧
      op ∉ (processQueueAux tok maxC q running inv stat).2.2.1 := by
  intro q
  induction q with
  | nil =>
    intro running inv stat hq hi
    simpa [processQueueAux] using hi
  | cons h t ih =>
    intro running inv stat hq hi
    have hne : h ≠ op := fun he => hq (he ▸ List.mem_cons_self h t)
    have hq2 : op ∉ t := fun hm => hq (List.mem_cons_of_mem h hm)
    by_cases hc : maxC ≤ running
    · simpa [processQueueAux, hc] using ⟨⟨fun he => hne he.symm, hq2⟩, hi⟩
    · by_cases ht : tok h = true
      · simpa [processQueueAux, hc, ht] using
          ih running inv (setStatus stat h .rejectedCancelled) hq2 hi
      · simp only [processQueueAux, hc, ht, if_false, Bool.false_eq_true]
        refine ⟨hq2, fun hm => ?_⟩
        rcases List.mem_append.mp hm with hm2 | hm2
        · exact hi hm2
        · exact hne (List.mem_singleton.mp hm2).symm

/-- Helper: a limiter event that is not a submission of op keeps op out of
the queue and out of the invoked list. -/
theorem limiterStep_not_mem (s : LimiterState) (op : Nat) (e : LimiterEvent)
    (hsub : e.submitsOp op = false) (hq : op ∉ s.queue) (hi : op ∉ s.invoked) :
    op ∉ (limiterStep s e).queue ∧ op ∉ (limiterStep s e).invoked := by
  cases e with
  | submit o tc =>
    have hne : o ≠ op := by
      intro he
      rw [he] at hsub
      simp [LimiterEvent.submitsOp] at hsub
    unfold limiterStep LimiterState.execute
    by_cases h1 : tc = true
    · simpa [h1] using ⟨hq, hi⟩
    · by_cases h2 : s.runningCount < s.maxConcurrent
      · simp only [h1, h2, Bool.false_eq_true, if_false, if_true]
        refine ⟨hq, fun hm => ?_⟩
        rcases List.mem_append.mp hm with hm2 | hm2
        · exact hi hm2
        · exact hne (List.mem_singleton.mp hm2).symm
      · by_cases h3 : s.queueLimit ≤ s.queue.length
        · simpa [h1, h2, h3] using ⟨hq, hi⟩
        · simp only [h1, h2, h3, Bool.false_eq_true, if_false]
          refine ⟨fun hm => ?_, hi⟩
          rcases List.mem_append.mp hm with hm2 | hm2
          · exact hq hm2
          · exact hne (List.mem_singleton.mp hm2).symm
  | complete o tok =>
    unfold limiterStep LimiterState.complete
    exact processQueueAux_not_mem tok s.maxConcurrent op s.queue
      (s.runningCount - 1) s.invoked (setStatus s.status o .done) hq hi
  | cancel o =>
    unfold limiterStep LimiterState.cancelQueued
    by_cases h1 : o ∈ s.queue
    · simp only [h1, if_true]
      exact ⟨fun hm => hq (List.mem_of_mem_erase hm), hi⟩
    · simpa [h1] using ⟨hq, hi⟩

/-- Helper: over any event trace that never submits op, an id absent from
the queue and the invoked list stays absent from both. -/
theorem limiterRun_not_mem (op : Nat) :
    ∀ (evs : List LimiterEvent) (s : LimiterState),
      (∀ e ∈ evs, e.submitsOp op = false) → op ∉ s.queue → op ∉ s.invoked →
      op ∉ (limiterRun s evs).queue ∧ op ∉ (limiterRun s evs).invoked := by
  intro evs
  induction evs with
  | nil =>
    intro s hsub hq hi
    exact ⟨hq, hi⟩
  | cons e rest ih =>
    intro s hsub hq hi
    have hstep := limiterStep_not_mem s op e (hsub e (by simp)) hq hi
    simpa [limiterRun] using
      ih (limiterStep s e) (fun x hx => hsub x (by simp [hx])) hstep.1 hstep.2

/-- C6: an execute call arriving when maxConcurrent operations are running
and the queue already holds queueLimit entries is rejected with the
queue-full error, changing neither the queue, the running counter nor the
invoked list, and (for a fresh id, over any later trace that does not
resubmit it) its operation is never invoked; and cancelling the token of
an operation that sits in the queue exactly once removes it from the
queue, rejects it with CancellationError, and its operation is never
invoked over any later trace that does not resubmit it. -/
theorem c6_limiter_rejections (s : LimiterState) (op : Nat) :
    (s.runningCount = s.maxConcurrent → s.queue.length = s.queueLimit →
      (s.execute op false).status op = .rejectedFull ∧
      (s.execute op false).invoked = s.invoked ∧
      (s.execute op false).queue = s.queue ∧
      (s.execute op false).runningCount = s.runningCount ∧
      (∀ evs : List LimiterEvent, (∀ e ∈ evs, e.submitsOp op = false) →
        op ∉ s.queue → op ∉ s.invoked →
        op ∉ (limiterRun (s.execute op false) evs).invoked)) ∧
    (s.queue.count op = 1 →
      (s.cancelQueued op).status op = .rejectedCancelled ∧
      op ∉ (s.cancelQueued op).queue ∧
      (∀ evs : List LimiterEvent, (∀ e ∈ evs, e.submitsOp op = false) →
        op ∉ s.invoked →
        op ∉ (limiterRun (s.cancelQueued op) evs).invoked)) := by
  constructor
  · intro hr hq
    have h2 : ¬ s.runningCount < s.maxConcurrent := by omega
    have h3 : s.queueLimit ≤ s.queue.length := by omega
    have hexec : s.execute op false =
        { s with status := setStatus s.status op .rejectedFull } := by
      unfold LimiterState.execute
      simp [h2, h3]
    refine ⟨by rw [hexec]; simp [setStatus], by rw [hexec], by rw [hexec],
      by rw [hexec], ?_⟩
    intro evs hsub hnq hni
    have := limiterRun_not_mem op evs (s.execute op false) hsub
      (by rw [hexec]; exact hnq) (by rw [hexec]; exact hni)
    exact this.2
  · intro hcount
    have hmem : op ∈ s.queue := by
      by_contra hno
      rw [List.count_eq_zero_of_not_mem hno] at hcount
      omega
    have hcanc : s.cancelQueued op =
        { s with
            queue := s.queue.erase op
            status := setStatus s.status op .rejectedCancelled } := by
      unfold LimiterState.cancelQueued
      simp [hmem]
    have hnoterase : op ∉ s.queue.erase op := by
      have hce := List.count_erase_self op s.queue
      rw [hcount] at hce
      exact List.count_eq_zero.mp (by omega)
    refine ⟨by rw [hcanc]; simp [setStatus], by rw [hcanc]; exact hnoterase, ?_⟩
    intro evs hsub hni
    have := limiterRun_not_mem op evs (s.cancelQueued op) hsub
      (by rw [hcanc]; exact hnoterase) (by rw [hcanc]; exact hni)
    exact this.2

/-- C6 witness: the theorem applied to the concrete limiter state with one
occupied slot and one queued entry: submitting operation 9 is rejected as
queue-full and never invoked across a completion event, and cancelling the
queued operation 5 removes and rejects it and it is never invoked. -/
theorem c6_witness :
    (limiterW.runningCount = limiterW.maxConcurrent ∧
      limiterW.queue.length = limiterW.queueLimit ∧
      limiterW.queue.count 5 = 1 ∧
      (∀ e ∈ limiterEvW, e.submitsOp 9 = false) ∧
      (∀ e ∈ limiterEvW, e.submitsOp 5 = false) ∧
      (9 : Nat) ∉ limiterW.queue ∧ (9 : Nat) ∉ limiterW.invoked ∧
      (5 : Nat) ∉ limiterW.invoked) ∧
    ((limiterW.execute 9 false).status 9 = .rejectedFull ∧
      (limiterW.execute 9 false).invoked = limiterW.invoked ∧
      (limiterW.execute 9 false).queue = limiterW.queue ∧
      (limiterW.execute 9 false).runningCount = limiterW.runningCount ∧
      (9 : Nat) ∉ (limiterRun (limiterW.execute 9 false) limiterEvW).invoked) ∧
    ((limiterW.cancelQueued 5).status 5 = .rejectedCancelled ∧
      (5 : Nat) ∉ (limiterW.cancelQueued 5).queue ∧
      (5 : Nat) ∉ (limiterRun (limiterW.cancelQueued 5) limiterEvW).invoked) := by
  have hsub9 : ∀ e ∈ limiterEvW, LimiterEvent.submitsOp e 9 = false := by
    intro e he
    simp only [limiterEvW, List.mem_singleton] at he
    subst he
    rfl
  have hsub5 : ∀ e ∈ limiterEvW, LimiterEvent.submitsOp e 5 = false := by
    intro e he
    simp only [limiterEvW, List.mem_singleton] at he
    subst he
    rfl
  have ha := (c6_limiter_rejections limiterW 9).1 rfl rfl
  have hb := (c6_limiter_rejections limiterW 5).2 (by decide)
  refine ⟨⟨rfl, rfl, by decide, hsub9, hsub5, by decide, by decide, by decide⟩, ?_, ?_⟩
  · exact ⟨ha.1, ha.2.1, ha.2.2.1, ha.2.2.2.1,
      ha.2.2.2.2 limiterEvW hsub9 (by decide) (by decide)⟩
  · exact ⟨hb.1, hb.2.1, hb.2.2 limiterEvW hsub5 (by decide)⟩

/-! ## WSClient send theorems -/

/-- Helper: every send call assigns the pre-incremented sequence number
to the constructed envelope and advances lastSeq by exactly one. -/
theorem send_seq_step {D : Type} (est : Envelope D → Nat) (serLen : Envelope D → Nat)
    (maxMessageSize : Nat) (maxBufferBytes : Int) (s : WSClientState D)
    (type : String) (data : D) (corr : Option String) (nowWall : String) :
    (WSClient.send est serLen maxMessageSize maxBufferBytes s
        type data corr nowWall).2.2.env.seq = s.lastSeq + 1 ∧
    (WSClient.send est serLen maxMessageSize maxBufferBytes s
        type data corr nowWall).2.1.lastSeq = s.lastSeq + 1 := by
  unfold WSClient.send
  by_cases h : s.connState ≠ ConnState.connected ∨ s.wsPresent = false
  · simp [h, SendAction.env]
  · simp only [h, if_false]
    by_cases h2 : maxMessageSize < serLen ⟨1, type, s.lastSeq + 1, corr, nowWall, data⟩ <;>
      simp [h2, SendAction.env]

/-- Helper: the envelopes constructed by a run of send calls all carry
sequence numbers above the starting lastSeq, pairwise strictly increasing
in construction order. -/
theorem sendMany_seq_strict {D : Type} (est : Envelope D → Nat) (serLen : Envelope D → Nat)
    (maxMessageSize : Nat) (maxBufferBytes : Int) :
    ∀ (cmds : List (SendCmd D)) (s : WSClientState D),
      (∀ e ∈ (WSClient.sendMany est serLen maxMessageSize maxBufferBytes s cmds).2,
        s.lastSeq < e.seq) ∧
      List.Pairwise (fun a b : Envelope D => a.seq < b.seq)
        (WSClient.sendMany est serLen maxMessageSize maxBufferBytes s cmds).2 := by
  intro cmds
  induction cmds with
  | nil =>
    intro s
    simp [WSClient.sendMany]
  | cons c cs ih =>
    intro s
    have hstep := send_seq_step est serLen maxMessageSize maxBufferBytes s
      c.type c.data c.corr c.nowWall
    have hrec := ih (WSClient.send est serLen maxMessageSize maxBufferBytes s
      c.type c.data c.corr c.nowWall).2.1
    rw [hstep.2] at hrec
    constructor
    · intro e he
      simp only [WSClient.sendMany, List.mem_cons] at he
      rcases he with he | he
      · rw [he, hstep.1]; omega
      · have := hrec.1 e he
        omega
    · simp only [WSClient.sendMany]
      rw [List.pairwise_cons]
      refine ⟨fun b hb => ?_, hrec.2⟩
      have := hrec.1 b hb
      rw [hstep.1]
      omega

/-- C7: over any sequence of send calls the sequence numbers assigned to
the constructed envelopes are pairwise strictly increasing in call order;
and whenever the client state is not connected, send does not transmit
but enqueues the constructed envelope into the message buffer and returns
exactly the boolean result of that enqueue, together with the buffer
state the enqueue produced. -/
theorem c7_send_monotone_and_buffering {D : Type} (est : Envelope D → Nat)
    (serLen : Envelope D → Nat) (maxMessageSize : Nat) (maxBufferBytes : Int) :
    (∀ (cmds : List (SendCmd D)) (s : WSClientState D),
      List.Pairwise (fun a b : Envelope D => a.seq < b.seq)
        (WSClient.sendMany est serLen maxMessageSize maxBufferBytes s cmds).2) ∧
    (∀ (s : WSClientState D) (type : String) (data : D) (corr : Option String)
        (nowWall : String),
      s.connState ≠ ConnState.connected →
      WSClient.send est serLen maxMessageSize maxBufferBytes s type data corr nowWall =
        ((mbEnqueue wsBufferCfg maxBufferBytes est s.buffer
            ⟨1, type, s.lastSeq + 1, corr, nowWall, data⟩).1,
          { s with
              lastSeq := s.lastSeq + 1
              buffer := (mbEnqueue wsBufferCfg maxBufferBytes est s.buffer
                ⟨1, type, s.lastSeq + 1, corr, nowWall, data⟩).2 },
          .buffered ⟨1, type, s.lastSeq + 1, corr, nowWall, data⟩)) := by
  constructor
  · intro cmds s
    exact (sendMany_seq_strict est serLen maxMessageSize maxBufferBytes cmds s).2
  · intro s type data corr nowWall hconn
    unfold WSClient.send
    have h : s.connState ≠ ConnState.connected ∨ s.wsPresent = false := Or.inl hconn
    simp only [h, if_true, eq_self_iff_true]

/-- C7 witness: the theorem applied at a concrete disconnected client
state, evaluating the buffering branch of send. -/
theorem c7_witness :
    ((⟨ConnState.disconnected, false, 0, MBState.empty⟩ :
        WSClientState Nat).connState ≠ ConnState.connected) ∧
    (List.Pairwise (fun a b : Envelope Nat => a.seq < b.seq)
      (WSClient.sendMany (fun _ => 4) (fun _ => 10) 100 1000
        ⟨ConnState.disconnected, false, 0, MBState.empty⟩
        [⟨"status.update", 1, none, "t1"⟩, ⟨"status.update", 2, none, "t2"⟩]).2) ∧
    (WSClient.send (fun _ => 4) (fun _ => 10) 100 1000
        ⟨ConnState.disconnected, false, 0, MBState.empty⟩
        "status.update" 1 none "t1" =
      ((mbEnqueue wsBufferCfg 1000 (fun _ => 4)
          (MBState.empty (T := Envelope Nat)) ⟨1, "status.update", 1, none, "t1", 1⟩).1,
        { connState := ConnState.disconnected
          wsPresent := false
          lastSeq := 1
          buffer := (mbEnqueue wsBufferCfg 1000 (fun _ => 4)
            (MBState.empty (T := Envelope Nat)) ⟨1, "status.update", 1, none, "t1", 1⟩).2 },
        .buffered ⟨1, "status.update", 1, none, "t1", 1⟩)) :=
  ⟨by decide,
    (c7_send_monotone_and_buffering (fun _ => 4) (fun _ => 10) 100 1000).1
      [⟨"status.update", 1, none, "t1"⟩, ⟨"status.update", 2, none, "t2"⟩]
      ⟨ConnState.disconnected, false, 0, MBState.empty⟩,
    (c7_send_monotone_and_buffering (fun _ => 4) (fun _ => 10) 100 1000).2
      ⟨ConnState.disconnected, false, 0, MBState.empty⟩
      "status.update" 1 none "t1" (by decide)⟩

/-! ## Value smoother theorems -/

/-- C8 counterexample: with minInterval 200, after emitting value 1 at
time 0, value 2 at time 10 schedules the pending timer capturing 2, and
value 3 at time 20 (while the timer is pending) does not replace the
pending value: the timer still holds 2, and when it fires the emitted
value is 2, not the most recent value 3. -/
theorem c8_counterexample :
    smootherW3.pendingAt = some (200, 2) ∧
    (smootherFire smootherW3 200).lastValue = some 2 ∧
    ¬ (smootherFire smootherW3 200).lastValue = some 3 := by
  have h3 : smootherW3 = ⟨some 1, 0, some (200, 2)⟩ := by
    unfold smootherW3
    norm_num [shouldEmit]
  refine ⟨by rw [h3], by rw [h3]; rfl, by rw [h3]; simp [smootherFire]⟩

/-- C8 (amended): shouldEmit returns true — recording the value and the
current time and leaving any pending timer in place — exactly when the
emission is forced, it is the first value ever, or the minimum interval
has elapsed since the last emission; otherwise it returns false, and if
no emission is pending it schedules one storing the value of that very
call, while if one is already pending the call changes nothing (the
pending value is not replaced); a pending emission, when its timer fires,
installs the value captured when it was scheduled. -/
theorem c8_shouldEmit_behavior {T : Type} (minInterval : ℚ) (s : SmootherState T)
    (v : T) (force : Bool) (now : ℚ) :
    ((shouldEmit minInterval s v force now).1 = true ↔
      (force = true ∨ s.lastValue = none ∨ minInterval ≤ now - s.lastUpdate)) ∧
    ((shouldEmit minInterval s v force now).1 = true →
      (shouldEmit minInterval s v force now).2.lastValue = some v ∧
      (shouldEmit minInterval s v force now).2.lastUpdate = now ∧
      (shouldEmit minInterval s v force now).2.pendingAt = s.pendingAt) ∧
    ((shouldEmit minInterval s v force now).1 = false → s.pendingAt = none →
      (shouldEmit minInterval s v force now).2 =
        { s with pendingAt := some (now + (minInterval - (now - s.lastUpdate)), v) }) ∧
    (∀ p, s.pendingAt = some p →
      (shouldEmit minInterval s v force now).1 = false →
      (shouldEmit minInterval s v force now).2 = s) ∧
    (∀ p, s.pendingAt = some p →
      ∀ fireNow : ℚ, smootherFire s fireNow = ⟨some p.2, fireNow, none⟩) := by
  have hfire : ∀ p : ℚ × T, s.pendingAt = some p →
      ∀ fireNow : ℚ, smootherFire s fireNow = ⟨some p.2, fireNow, none⟩ := by
    intro p hp fireNow
    unfold smootherFire
    rw [hp]
  have hnnOf : s.lastValue ≠ none → s.lastValue.isNone = false := by
    intro hn
    cases hval : s.lastValue with
    | none => exact absurd hval hn
    | some w => rfl
  refine ⟨?_, ?_, ?_, ?_, hfire⟩
  · by_cases hf : force = true
    · simp [shouldEmit, hf]
    · by_cases hn : s.lastValue = none
      · simp [shouldEmit, hf, hn]
      · by_cases ht : minInterval ≤ now - s.lastUpdate
        · simp [shouldEmit, hf, hn, hnnOf hn, ht]
        · cases hp : s.pendingAt <;> simp [shouldEmit, hf, hn, hnnOf hn, ht, hp]
  · intro htrue
    by_cases hf : force = true
    · simp [shouldEmit, hf]
    · by_cases hn : s.lastValue = none
      · simp [shouldEmit, hf, hn]
      · by_cases ht : minInterval ≤ now - s.lastUpdate
        · simp [shouldEmit, hf, hn, hnnOf hn, ht]
        · exfalso
          cases hp : s.pendingAt <;>
            simp [shouldEmit, hf, hn, hnnOf hn, ht, hp] at htrue
  · intro hfalse hpnone
    by_cases hf : force = true
    · simp [shouldEmit, hf] at hfalse
    · by_cases hn : s.lastValue = none
      · simp [shouldEmit, hf, hn] at hfalse
      · by_cases ht : minInterval ≤ now - s.lastUpdate
        · simp [shouldEmit, hf, hn, hnnOf hn, ht] at hfalse
        · simp [shouldEmit, hf, hn, hnnOf hn, ht, hpnone]
  · intro p hp hfalse
    by_cases hf : force = true
    · simp [shouldEmit, hf] at hfalse
    · by_cases hn : s.lastValue = none
      · simp [shouldEmit, hf, hn] at hfalse
      · by_cases ht : minInterval ≤ now - s.lastUpdate
        · simp [shouldEmit, hf, hn, hnnOf hn, ht] at hfalse
        · simp [shouldEmit, hf, hn, hnnOf hn, ht, hp]

/-- C8 witness: the amended theorem at minInterval 200 with a pending
timer holding value 2, a new value 3 arriving at time 20, showing the
false return, the unchanged state, and the fire installing value 2. -/
theorem c8_witness :
    ((⟨some 1, 0, some (200, 2)⟩ : SmootherState Nat).pendingAt = some (200, 2) ∧
      (shouldEmit 200 (⟨some 1, 0, some (200, 2)⟩ : SmootherState Nat) 3 false 20).1 =
        false) ∧
    ((shouldEmit 200 (⟨some 1, 0, some (200, 2)⟩ : SmootherState Nat) 3 false 20).2 =
      ⟨some 1, 0, some (200, 2)⟩) ∧
    (smootherFire (⟨some 1, 0, some (200, 2)⟩ : SmootherState Nat) 200 =
      ⟨some 2, 200, none⟩) :=
  ⟨⟨rfl, by norm_num [shouldEmit]⟩,
    (c8_shouldEmit_behavior 200 (⟨some 1, 0, some (200, 2)⟩ : SmootherState Nat)
        3 false 20).2.2.2.1 (200, 2) rfl (by norm_num [shouldEmit]),
    (c8_shouldEmit_behavior 200 (⟨some 1, 0, some (200, 2)⟩ : SmootherState Nat)
        3 false 20).2.2.2.2 (200, 2) rfl 200⟩

/-! ## Worker channel theorems -/

/-- C9: evaluated at a channel with one outstanding request, shutdown
rejects the outstanding request with the shutdown error, clears the
pending set and terminates the worker, and every later computeProgress,
computeETA or initialize call fails immediately with the worker-is-
shutdown error without posting anything — but the SHUTDOWN message is
never posted to the worker: the shutdown flag is set before sendMessage
runs, so sendMessage's own guard throws (caught and ignored) before
postMessage, contradicting the claimed (and intended, per the code's own
comment) sending of a SHUTDOWN message. -/
theorem c9_shutdown_never_posts :
    (shutdown ⟨2, [1], false, [("COMPUTE_PROGRESS", 1)], false⟩).1 =
      [(1, "Worker is shutting down")] ∧
    (shutdown ⟨2, [1], false, [("COMPUTE_PROGRESS", 1)], false⟩).2 =
      ⟨2, [], true, [("COMPUTE_PROGRESS", 1)], true⟩ ∧
    ((shutdown ⟨2, [1], false, [("COMPUTE_PROGRESS", 1)], false⟩).2.posted.map
        Prod.fst).contains "SHUTDOWN" = false ∧
    computeProgress (shutdown ⟨2, [1], false, [("COMPUTE_PROGRESS", 1)], false⟩).2
        false =
      (.error (.plain "Worker is shutdown"),
        (shutdown ⟨2, [1], false, [("COMPUTE_PROGRESS", 1)], false⟩).2) ∧
    computeETA (shutdown ⟨2, [1], false, [("COMPUTE_PROGRESS", 1)], false⟩).2
        false =
      (.error (.plain "Worker is shutdown"),
        (shutdown ⟨2, [1], false, [("COMPUTE_PROGRESS", 1)], false⟩).2) ∧
    initRequest (shutdown ⟨2, [1], false, [("COMPUTE_PROGRESS", 1)], false⟩).2 =
      (.error (.plain "Worker is shutdown"),
        (shutdown ⟨2, [1], false, [("COMPUTE_PROGRESS", 1)], false⟩).2) :=
  ⟨rfl, rfl, rfl, rfl, rfl, rfl⟩

end LoquiLex
